import Mathlib

/-!
Verification development for the njses dependency-injection / lifecycle runtime.

The repository contains several iterations of the same engine.  The claims cite
four of them, which we embed separately where they differ:

* "Main"  : class Registery  (src/src/main/registery.ts) with its Shadow
            (src/src/main/shadow.ts).  One cache map whose slots are
            records holding an optional instance and an optional mount promise.
* "SR"    : class ServiceRegistery (src/src/service-registery.ts).  Two cache
            maps, "instances" and "mounts", plus a then/finally pair of
            completion handlers on the mount promise.
* "Top"   : class ServiceRegistery (src/service-registery.ts, first document),
            whose _initService orders the stages differently.
* the two Shadow.emit variants (src/src/shadow.ts snapshots the listener set
  with Array.from, src/shadow.ts iterates the live set).

Machine model: JavaScript is single threaded; an async function runs
synchronously up to its first await.  In Registery.mount (and SR mountService)
there is no await between reading the cache slot and publishing the new
in-flight handle, so one mount request is modelled as one atomic step on the
registry state.  Completion and rejection of a pipeline promise are separate
steps (the then / finally handlers run later, on the microtask queue).
-/

set_option autoImplicit false

namespace NJSES

/-- The argument value a destroy-hook method receives.   bare c  is the plain
cause value c;  doubleWrapped c  is the JavaScript value [[c]], an array
holding an array holding c — this is what the invoke / resolve chain of
src/src/main/registery.ts delivers, because invoke passes its collected rest
array positionally to resolve, whose own rest parameter wraps it once more
before spreading. -/
inductive HookArg where
  | bare (cause : String)
  | doubleWrapped (cause : String)
deriving DecidableEq, Repr

/-- A constructor function (ComponentCtr).  The field id models object
identity, so the strict-equality test of the source,
instance.constructor === source, is equality of the whole structure; the field
name models ctr.name, compared by Registery.mount when the constructors
differ. -/
structure Ctr where
  id : Nat
  name : String
deriving DecidableEq, Repr

/-- A constructed instance.  The field ctr records instance.constructor. -/
structure Inst where
  id : Nat
  ctr : Ctr
deriving DecidableEq, Repr

/-! ## Initialization pipeline: outcome model

Models Registery._init of src/src/main/registery.ts (stages and the
try/catch), together with the invokeAll helper of the same file.

invokeAll is methodNames.map(m => this.invoke(instance, m, ...params)): the
methods are called one after the other, synchronously.  A synchronous throw
escapes out of map immediately (later methods are not called).  An async
method instead returns a promise; the promise lands in the returned array and
is never awaited, because "await xs" for an array xs does not await its
elements.  Hence the behaviour of one hook is one of: return synchronously,
throw synchronously, return a promise that later resolves, or return a
promise that later rejects, and only the synchronous throw is observable by
the pipeline. -/

/-- Behaviour of one hook method when invoked. -/
inductive HookBeh where
  | retOk
  | throwSync (cause : String)
  | asyncOk
  | asyncFail (cause : String)
deriving DecidableEq, Repr

/-- A hook method: its name and its behaviour. -/
structure Hook where
  name : String
  beh : HookBeh
deriving DecidableEq, Repr

/-- Result of invokeAll on a list of hook methods: the cause of the first
synchronous throw, if any.  Promises returned by async hooks are collected
unawaited, so asyncOk and asyncFail are indistinguishable here. -/
def invokeAllRun : List Hook → Except String Unit
  | [] => .ok ()
  | h :: t =>
    match h.beh with
    | .throwSync c => .error c
    | _ => invokeAllRun t

/-- The error class NJSESError (src/src/errors.ts): message, wrapped cause and
tag list.  Registery._init throws
new NJSESError("Initialization failed", e, ["_init", stage]). -/
structure NJSESErr where
  msg : String
  cause : String
  tags : List String
deriving DecidableEq, Repr

/-- An awaited sub-operation of a stage (a side-effect mount or one dependency
resolution): its name and, when it fails, the rejection cause.  These awaits
are real: a rejection is rethrown into the try block of _init. -/
structure AwaitedOp where
  name : String
  failure : Option String
deriving DecidableEq, Repr

/-- First failing awaited operation of a stage, if any. -/
def firstFailure : List AwaitedOp → Option String
  | [] => none
  | op :: rest =>
    match op.failure with
    | some c => some c
    | none => firstFailure rest

/-- The hook metadata of one service, as Registery._init reads it from the
shadow: side effects, dependency injections, and the configure, init and
mount method sets. -/
structure ShadowP where
  sideEffects : List AwaitedOp
  injections : List AwaitedOp
  configures : List Hook
  inits : List Hook
  mounts : List Hook
deriving DecidableEq, Repr

/-- Outcome of Registery._init: ok, or the wrapped NJSESError with which the
mount promise rejects.  Stage strings are the ones assigned to the local
variable stage in the source.  Mirrors the statement order of _init: side
effects (awaited mounts), injections (awaited resolutions), then invokeAll
over configure, init and mount hooks inside the same try/catch. -/
def initRun (sh : ShadowP) : Except NJSESErr Unit :=
  match firstFailure sh.sideEffects with
  | some c => .error ⟨"Initialization failed", c, ["_init", "side-effects"]⟩
  | none =>
  match firstFailure sh.injections with
  | some c => .error ⟨"Initialization failed", c, ["_init", "injections"]⟩
  | none =>
  match invokeAllRun sh.configures with
  | .error c => .error ⟨"Initialization failed", c, ["_init", "configuration"]⟩
  | .ok _ =>
  match invokeAllRun sh.inits with
  | .error c => .error ⟨"Initialization failed", c, ["_init", "init-callbacks"]⟩
  | .ok _ =>
  match invokeAllRun sh.mounts with
  | .error c => .error ⟨"Initialization failed", c, ["_init", "mount-callbacks"]⟩
  | .ok _ => .ok ()

/-! ## Main variant: the Registery cache machine (src/src/main/registery.ts)

We model the lifecycle of one cache key (one service name with one
canonical params hash) of Registery._serviceInstances, a ComponentCache whose
slots are records with two optional fields, "instance" and "mount".

The per-key machine has four kinds of steps, mirroring the source:

* a mount request (the synchronous body of Registery.mount for a non-dynamic
  component, from reading the slot up to publishing the in-flight handle:
  no await separates these in the fresh-mount path);
* the success handler mount.then(...) registered in mount, which overwrites
  the slot with the resolved instance and no mount — note there is no
  rejection handler in this variant;
* rejection of the pipeline promise (no handler runs; the slot keeps the
  now-rejected promise under "mount");
* Registery.destroyService (read slot, delete slot, then run destroy hooks if
  an instance was present).

Pipeline starts are counted; each started pipeline is recorded in the field
pendings as the pair of the handle id and the instance that the promise
resolves with (Registery._init resolves with the very instance constructed
before it was called). -/

/-- One slot of Registery._serviceInstances: optional instance, optional
in-flight mount promise (a promise is identified by a numeric handle). -/
structure MainEntry where
  inst : Option Inst
  mnt : Option Nat
deriving DecidableEq, Repr

/-- State of the Main machine for one (name, paramsHash) key. -/
structure MainState where
  entry : Option MainEntry
  pendings : List (Nat × Inst)
  nextId : Nat
  starts : Nat
deriving DecidableEq, Repr

/-- Observable events of the Main machine. -/
inductive MainEv where
  | constructed (i : Inst)
  | pipelineStart (i : Inst)
  | destroyHook (i : Inst) (m : String) (arg : HookArg)
  | cacheDelete
  | published (i : Inst)
deriving DecidableEq, Repr

/-- Result of one mount request. -/
inductive MountRes where
  | inst (i : Inst)
  | handle (h : Nat)
  | err (msg : String)
deriving DecidableEq, Repr

/-- Initial state: the key is absent. -/
def state0 : MainState := ⟨none, [], 0, 0⟩

/-- Registery.destroyService for the modelled key: reads the slot, deletes it,
and if an instance was registered invokes every destroy-hook method with the
reason — each method receiving the value [[reason]] (see HookArg).  dHooks is
shadow.getMethods(FIELD_NAME.DESTROY). -/
def destroyServiceM (dHooks : List String) (reason : String) (s : MainState) :
    MainState × List MainEv :=
  let registered := s.entry
  let s1 := { s with entry := none }
  match registered with
  | none => (s1, [MainEv.cacheDelete])
  | some e =>
    match e.inst with
    | none => (s1, [MainEv.cacheDelete])
    | some i =>
        (s1, MainEv.cacheDelete ::
          dHooks.map (fun m => MainEv.destroyHook i m (HookArg.doubleWrapped reason)))

/-- The fresh-mount tail of Registery.mount: construct the bare instance, start
_init obtaining the mount promise, store the slot with only the mount set, and
register the success handler.  Returns the promise. -/
def freshMount (src : Ctr) (s : MainState) : MainState × MountRes × List MainEv :=
  let i : Inst := ⟨s.nextId, src⟩
  let h : Nat := s.nextId + 1
  ({ entry := some ⟨none, some h⟩,
     pendings := s.pendings ++ [(h, i)],
     nextId := s.nextId + 2,
     starts := s.starts + 1 },
   MountRes.handle h,
   [MainEv.constructed i, MainEv.pipelineStart i])

/-- Registery.mount for a non-dynamic component on the modelled key.  Mirrors
the branch structure of the source: fast path when an instance is present and
its constructor is the requested one; on constructor mismatch either the
name-conflict error or destroyService with reason "re-mount"; then the check
of registered.mount (with registered read at entry, before the destroy); else
the fresh mount. -/
def mountM (dHooks : List String) (src : Ctr) (s : MainState) :
    MainState × MountRes × List MainEv :=
  let registered := s.entry
  match registered.bind MainEntry.inst with
  | some i =>
      if i.ctr = src then
        (s, MountRes.inst i, [])
      else if i.ctr.name ≠ src.name then
        (s, MountRes.err "Multiple services with same name registered.", [])
      else
        let de := destroyServiceM dHooks "re-mount" s
        match registered.bind MainEntry.mnt with
        | some h => (de.1, MountRes.handle h, de.2)
        | none =>
            let fr := freshMount src de.1
            (fr.1, fr.2.1, de.2 ++ fr.2.2)
  | none =>
      match registered.bind MainEntry.mnt with
      | some h => (s, MountRes.handle h, [])
      | none => freshMount src s

/-- The success handler of the mount promise h: stores the resolved instance
in the slot (replacing whatever the slot holds) and forgets the pending
pipeline.  If h is not pending, nothing happens. -/
def completeOkM (s : MainState) (h : Nat) : MainState × List MainEv :=
  match s.pendings.find? (fun p => p.1 == h) with
  | some p =>
      ({ s with entry := some ⟨some p.2, none⟩,
                pendings := s.pendings.filter (fun q => q.1 != h) },
       [MainEv.published p.2])
  | none => (s, [])

/-- Rejection of the mount promise h: Registery.mount registered no rejection
handler, so the cache slot is untouched; only the pipeline stops being
pending. -/
def completeFailM (s : MainState) (h : Nat) : MainState × List MainEv :=
  ({ s with pendings := s.pendings.filter (fun q => q.1 != h) }, [])

/-- External steps applicable to the Main machine. -/
inductive MainAct where
  | req (src : Ctr)
  | completeOk (h : Nat)
  | completeFail (h : Nat)
  | destroyAct (reason : String)
deriving DecidableEq, Repr

/-- Whether a step is the resolution of some pipeline promise. -/
def MainAct.isCompleteOk : MainAct → Bool
  | .completeOk _ => true
  | _ => false

/-- One step of the Main machine; mount requests yield a result. -/
def mainStep (dHooks : List String) (s : MainState) :
    MainAct → MainState × List MountRes × List MainEv
  | .req src =>
      let t := mountM dHooks src s
      (t.1, [t.2.1], t.2.2)
  | .completeOk h =>
      let t := completeOkM s h
      (t.1, [], t.2)
  | .completeFail h =>
      let t := completeFailM s h
      (t.1, [], t.2)
  | .destroyAct reason =>
      let t := destroyServiceM dHooks reason s
      (t.1, [], t.2)

/-- Run the Main machine over a list of steps, collecting the mount-request
results and the event trace. -/
def runMain (dHooks : List String) (s : MainState) :
    List MainAct → MainState × List MountRes × List MainEv
  | [] => (s, [], [])
  | a :: rest =>
      let t := mainStep dHooks s a
      let u := runMain dHooks t.1 rest
      (u.1, t.2.1 ++ u.2.1, t.2.2 ++ u.2.2)

/-- The instance constructed by the first fresh mount from the initial state. -/
def inst0 (c : Ctr) : Inst := ⟨0, c⟩

/-- The key while the first pipeline is in flight: the slot holds only the
promise handle 1, which will resolve with inst0 c. -/
def inflightS (c : Ctr) : MainState :=
  ⟨some ⟨none, some 1⟩, [(1, inst0 c)], 2, 1⟩

/-- The key after the first pipeline resolved: the slot holds only the
instance. -/
def mountedS (c : Ctr) : MainState :=
  ⟨some ⟨some (inst0 c), none⟩, [], 2, 1⟩

/-- Whether a hook throws during its synchronous part. -/
def Hook.throwsSync (h : Hook) : Bool :=
  match h.beh with
  | .throwSync _ => true
  | _ => false

/-- A mount hook does not throw during its synchronous part (it may still
return a promise that later rejects). -/
def noSyncThrow (h : Hook) : Prop :=
  h.throwsSync = false

instance (h : Hook) : Decidable (noSyncThrow h) :=
  inferInstanceAs (Decidable (h.throwsSync = false))

/-! ## SR variant: the ServiceRegistery machine (src/src/service-registery.ts)

Per-key model as for the Main machine, but this class keeps two separate maps,
"instances" and "mounts", and registers both a then handler (store the
instance) and a finally handler (delete the mounts slot) on the pipeline
promise.  Its hot-swap branch silently deletes both slots (the source carries
the comment "TODO destroy?") and destroy runs the hooks before the deletes.
In this variant the invoke / resolve chain spreads the params array correctly,
so a destroy hook receives the bare cause value. -/

/-- State of the SR machine for one (name, paramsHash) key. -/
structure SRState where
  instOpt : Option Inst
  mntOpt : Option Nat
  pendings : List (Nat × Inst)
  nextId : Nat
  starts : Nat
deriving DecidableEq, Repr

/-- Observable events of the SR machine. -/
inductive SREv where
  | constructed (i : Inst)
  | pipelineStart (i : Inst)
  | destroyHook (i : Inst) (m : String) (arg : HookArg)
  | instancesDelete
  | mountsDelete
  | instancesSet (i : Inst)
deriving DecidableEq, Repr

/-- Initial SR state: the key is absent from both maps. -/
def srState0 : SRState := ⟨none, none, [], 0, 0⟩

/-- ServiceRegistery.destroy for the modelled key: reads the instances slot;
if an instance is present, invokes every destroy-hook method with the bare
cause; then deletes the key from both the instances and the mounts map. -/
def destroySR (dHooks : List String) (cause : String) (s : SRState) :
    SRState × List SREv :=
  let s1 := { s with instOpt := none, mntOpt := none }
  match s.instOpt with
  | some i =>
      (s1, dHooks.map (fun m => SREv.destroyHook i m (HookArg.bare cause)) ++
           [SREv.instancesDelete, SREv.mountsDelete])
  | none => (s1, [SREv.instancesDelete, SREv.mountsDelete])

/-- The fresh-mount tail of ServiceRegistery.mountService: construct, start
_initService, register the then / finally handlers, store the promise in the
mounts map. -/
def freshSR (src : Ctr) (s : SRState) (evs : List SREv) :
    SRState × MountRes × List SREv :=
  let i : Inst := ⟨s.nextId, src⟩
  let h : Nat := s.nextId + 1
  ({ s with mntOpt := some h,
            pendings := s.pendings ++ [(h, i)],
            nextId := s.nextId + 2,
            starts := s.starts + 1 },
   MountRes.handle h,
   evs ++ [SREv.constructed i, SREv.pipelineStart i])

/-- ServiceRegistery.mountService for a non-dynamic service on the modelled
key.  On constructor mismatch the slots are deleted silently — no destroy
hooks run — and the mounts map is then re-read (after the deletion, so the
in-flight check cannot fire on that path). -/
def mountSR (src : Ctr) (s : SRState) : SRState × MountRes × List SREv :=
  match s.instOpt with
  | some i =>
      if i.ctr = src then
        (s, MountRes.inst i, [])
      else
        let s1 := { s with instOpt := none, mntOpt := none }
        let evs := [SREv.instancesDelete, SREv.mountsDelete]
        match s1.mntOpt with
        | some h => (s1, MountRes.handle h, evs)
        | none => freshSR src s1 evs
  | none =>
      match s.mntOpt with
      | some h => (s, MountRes.handle h, [])
      | none => freshSR src s []

/-- Resolution of the pipeline promise h in the SR machine: the then handler
stores the instance in the instances map, the finally handler deletes the
mounts slot. -/
def completeOkSR (s : SRState) (h : Nat) : SRState × List SREv :=
  match s.pendings.find? (fun p => p.1 == h) with
  | some p =>
      ({ s with instOpt := some p.2, mntOpt := none,
                pendings := s.pendings.filter (fun q => q.1 != h) },
       [SREv.instancesSet p.2, SREv.mountsDelete])
  | none => (s, [])

/-- Rejection of the pipeline promise h in the SR machine: the then handler is
skipped, the finally handler still deletes the mounts slot, and nothing is
stored in the instances map — the key is fully evicted. -/
def completeFailSR (s : SRState) (h : Nat) : SRState × List SREv :=
  match s.pendings.find? (fun p => p.1 == h) with
  | some _ =>
      ({ s with mntOpt := none,
                pendings := s.pendings.filter (fun q => q.1 != h) },
       [SREv.mountsDelete])
  | none => (s, [])

/-! ## Stage order traces

Invocation order of the pipeline work items, for two variants.  Each entry of
the shadow contributes one trace event; the events of one mount appear in the
trace exactly in the source order of the statements that issue them, because
each loop iterates its collection in order and no statement of _init /
_initService runs before a statement textually preceding it. -/

/-- One pipeline work item, tagged with its stage. -/
inductive StageEv where
  | mountDefault
  | sideEffectMount (s : String)
  | factoryApply (f : String)
  | depBind (f : String)
  | configureCall (m : String)
  | initCall (m : String)
  | mountCall (m : String)
deriving DecidableEq, Repr

/-- Shadow contents read by Registery._init (src/src/main/registery.ts):
side effects, dependency fields, configure, init and mount method names, each
in declaration order. -/
structure ShadowO where
  sideEffects : List String
  injections : List String
  configures : List String
  inits : List String
  mounts : List String
deriving DecidableEq, Repr

/-- Shadow contents read by ServiceRegistery._initService of
src/service-registery.ts (first document), which additionally has a factory
stage. -/
structure ShadowT where
  configures : List String
  sideEffects : List String
  factories : List String
  deps : List String
  inits : List String
  mounts : List String
deriving DecidableEq, Repr

/-- Work-item order of Registery._init: side effects, then dependency fields,
then configure, init and mount hooks. -/
def initOrderMain (sh : ShadowO) : List StageEv :=
  sh.sideEffects.map StageEv.sideEffectMount ++
  sh.injections.map StageEv.depBind ++
  sh.configures.map StageEv.configureCall ++
  sh.inits.map StageEv.initCall ++
  sh.mounts.map StageEv.mountCall

/-- Work-item order of ServiceRegistery._initService
(src/service-registery.ts): first the DefaultModule mount, then the configure
hooks (labelled stage 0 in the source and passed the default module), then
side effects, factories, dependency fields, init hooks and mount hooks. -/
def initOrderTop (sh : ShadowT) : List StageEv :=
  StageEv.mountDefault ::
  (sh.configures.map StageEv.configureCall ++
   sh.sideEffects.map StageEv.sideEffectMount ++
   sh.factories.map StageEv.factoryApply ++
   sh.deps.map StageEv.depBind ++
   sh.inits.map StageEv.initCall ++
   sh.mounts.map StageEv.mountCall)

/-- Rank of each event kind in the order the claim asserts: side-effect
mounts, then dependency binds, then configure, init, mount hooks.  The two
kinds outside the claim (the default-module mount and the factory stage of
the older variant) rank below everything so that they never make an otherwise
ordered trace unordered. -/
def stageRank : StageEv → Nat
  | .mountDefault => 0
  | .sideEffectMount _ => 1
  | .factoryApply _ => 1
  | .depBind _ => 2
  | .configureCall _ => 3
  | .initCall _ => 4
  | .mountCall _ => 5

/-- A trace respects the claimed stage order when the ranks never decrease
along it. -/
def StageOrdered (t : List StageEv) : Prop :=
  t.Pairwise (fun a b => stageRank a ≤ stageRank b)

/-! ## Role index models

The SR variant: getAssignees maps the constructors registered under the role
(ServiceRegistery.mountService adds them when a fresh mount starts) to their
currently cached instances and flattens.  The Main variant: getAssignees
returns the constructors of the role set directly, which Registery.register
populates at registration time.

Association-list helpers model the nested Map objects; services are keyed by
their shadow name, instances by the params hash. -/

/-- Map.get semantics on an association list with String keys. -/
def alget {α : Type} : List (String × α) → String → Option α
  | [], _ => none
  | p :: m, k => if p.1 = k then some p.2 else alget m k

/-- Map.set semantics on an association list: replace the binding in place if
the key is present, otherwise append it. -/
def alset {α : Type} : List (String × α) → String → α → List (String × α)
  | [], k, v => [(k, v)]
  | p :: m, k, v => if p.1 = k then (k, v) :: m else p :: alset m k v

/-- Map.delete semantics on an association list (keys are unique in every map
built by alset, so dropping all bindings of the key is the same as dropping
the one binding). -/
def aldel {α : Type} (m : List (String × α)) (k : String) : List (String × α) :=
  m.filter (fun p => p.1 != k)

/-- Set.add semantics for a role entry: add the service name if absent. -/
def addRoleName (m : List (String × List String)) (r : String) (n : String) :
    List (String × List String) :=
  match alget m r with
  | some ns => alset m r (if n ∈ ns then ns else ns ++ [n])
  | none => m ++ [(r, [n])]

/-- A declared service for the role models: its unique shadow name and its
declared roles. -/
structure Svc where
  name : String
  roles : List String
deriving DecidableEq, Repr

/-- State of the SR role model: the roles map (role name to service names)
and the instances map (service name to params-hash-keyed instances). -/
structure SR8State where
  roles : List (String × List String)
  insts : List (String × List (String × Nat))
deriving DecidableEq, Repr

/-- Lifecycle events that touch the two maps of the SR role model. -/
inductive Ev8 where
  | mountStart (s : Svc)
  | mountDone (n : String) (h : String) (i : Nat)
  | destroy8 (n : String) (h : String)
deriving DecidableEq, Repr

/-- One event applied to the SR role-model state: a fresh mount start adds
the service under each of its roles; promise resolution stores the instance
under (name, hash); destroy deletes the (name, hash) instance. -/
def step8 (st : SR8State) : Ev8 → SR8State
  | .mountStart s =>
      { st with roles := s.roles.foldl (fun m r => addRoleName m r s.name) st.roles }
  | .mountDone n h i =>
      let inner :=
        match alget st.insts n with
        | some l => alset l h i
        | none => [(h, i)]
      { st with insts := alset st.insts n inner }
  | .destroy8 n h =>
      let m :=
        match alget st.insts n with
        | some l => alset st.insts n (aldel l h)
        | none => st.insts
      { st with insts := m }

/-- Run the SR role model from the empty registry. -/
def run8 (evs : List Ev8) : SR8State :=
  evs.foldl step8 ⟨[], []⟩

/-- ServiceRegistery.getInstances for a service name: the values of its inner
instances map. -/
def getInstances8 (st : SR8State) (n : String) : List Nat :=
  ((alget st.insts n).getD []).map Prod.snd

/-- ServiceRegistery.getAssignees: the services registered under the role,
each mapped to its current instances, flattened. -/
def getAssignees8 (st : SR8State) (r : String) : List Nat :=
  (((alget st.roles r).getD []).map (getInstances8 st)).flatten

/-- Lookup of one (name, hash) instance slot in the SR role model. -/
def instGet8 (st : SR8State) (n : String) (h : String) : Option Nat :=
  alget ((alget st.insts n).getD []) h

/-- State of the Main role model: Registery keeps a registered map, a roles
map holding constructors, and the service-instances cache. -/
structure MainRegState where
  registered : List (String × Ctr)
  rolesM : List (String × List Ctr)
  serviceInstances : List (String × List (String × Nat))
deriving DecidableEq, Repr

/-- Set.add semantics for a constructor role entry. -/
def addRoleCtr (m : List (String × List Ctr)) (r : String) (c : Ctr) :
    List (String × List Ctr) :=
  match alget m r with
  | some cs => alset m r (if c ∈ cs then cs else cs ++ [c])
  | none => m ++ [(r, [c])]

/-- Registery.register: stores the constructor under its shadow name and adds
it to the role set of every declared role.  No instance is created. -/
def registerMain (c : Ctr) (shadowName : String) (shadowRoles : List String)
    (st : MainRegState) : MainRegState :=
  { registered := alset st.registered shadowName c,
    rolesM := shadowRoles.foldl (fun m r => addRoleCtr m r c) st.rolesM,
    serviceInstances := st.serviceInstances }

/-- Registery.getAssignees: returns the constructors of the role set, whether
or not any of them was ever mounted. -/
def getAssigneesMainReg (st : MainRegState) (r : String) : List Ctr :=
  (alget st.rolesM r).getD []

/-- Registery.getServiceInstances for a service name: the cached instances
that are present (slots holding only an in-flight mount are filtered out). -/
def getServiceInstancesMainReg (st : MainRegState) (n : String) : List Nat :=
  ((alget st.serviceInstances n).getD []).map Prod.snd

/-! ## Event bus models (Shadow.emit)

Listeners are identified by name; the environment assigns each name the
mutation its callback performs on the listener set of the emitted event when
invoked.  The registered set is an insertion-ordered list without duplicates
(a JavaScript Set).

The src/src/shadow.ts variant iterates Array.from(listeners): the iteration
list is fixed before the first callback runs.  The src/shadow.ts variant
iterates the live Set; per the iteration protocol of Set, values added during
iteration are visited after the existing ones and a value deleted before
being visited is skipped. -/

/-- What a listener callback does to the listener set being emitted. -/
inductive LAct where
  | pass
  | addL (l : String)
  | removeL (l : String)
deriving DecidableEq, Repr

/-- A listener: its name and the set mutation its callback performs. -/
structure Listener where
  name : String
  act : LAct
deriving DecidableEq, Repr

/-- The mutation performed by the named listener, pass when unknown. -/
def lookupAct (env : List Listener) (n : String) : LAct :=
  ((env.find? (fun l => l.name == n)).map Listener.act).getD LAct.pass

/-- Apply a callback mutation to the whole listener set (Set.add appends a
missing value, Set.delete removes). -/
def applyLAct (a : LAct) (cur : List String) : List String :=
  match a with
  | .pass => cur
  | .addL x => if x ∈ cur then cur else cur ++ [x]
  | .removeL x => cur.erase x

/-- Apply a callback mutation to the live set split into the already visited
part and the not yet visited part: an added value (absent from the whole set)
is appended to the unvisited part; a deleted value disappears from both. -/
def applySplit (a : LAct) (visited rest : List String) :
    List String × List String :=
  match a with
  | .pass => (visited, rest)
  | .addL x => if x ∈ visited ∨ x ∈ rest then (visited, rest) else (visited, rest ++ [x])
  | .removeL x => (visited.erase x, rest.erase x)

/-- Live-set emission (src/shadow.ts): invoke the next unvisited listener,
apply its mutation to the split set, continue with the possibly extended
unvisited part.  Fuel bounds the recursion, since callbacks may keep adding
listeners. -/
def emitLive (env : List Listener) : Nat → List String → List String → List String
  | 0, _, _ => []
  | _ + 1, _, [] => []
  | fuel + 1, visited, cur :: rest =>
      let vr := applySplit (lookupAct env cur) (visited ++ [cur]) rest
      cur :: emitLive env fuel vr.1 vr.2

/-- Live-set emission with enough fuel for any case in which every
environment listener is added at most once. -/
def emitLiveRun (env : List Listener) (listeners : List String) : List String :=
  emitLive env (listeners.length + env.length + 1) [] listeners

/-- Snapshot emission (src/src/shadow.ts): the iteration list is fixed by
Array.from before the first callback runs; mutations still update the
registered set.  Returns the invoked names and the final set. -/
def emitSnap (env : List Listener) : List String → List String → List String × List String
  | [], cur => ([], cur)
  | x :: toVisit, cur =>
      let res := emitSnap env toVisit (applyLAct (lookupAct env x) cur)
      (x :: res.1, res.2)

/-- The names invoked by snapshot emission on a registered set. -/
def emitSnapInvoked (env : List Listener) (listeners : List String) : List String :=
  (emitSnap env listeners listeners).1

/-! ## Helper lemmas -/

/-- Stage order is decidable, so counterexample traces can be checked by
evaluation. -/
instance (t : List StageEv) : Decidable (StageOrdered t) := by
  unfold StageOrdered
  infer_instance

/-- A list is pairwise related when the relation holds for every pair. -/
theorem pairwiseOfForall {α : Type} {R : α → α → Prop} (h : ∀ a b, R a b) :
    ∀ l : List α, l.Pairwise R
  | [] => List.Pairwise.nil
  | x :: xs => List.Pairwise.cons (fun b _ => h x b) (pairwiseOfForall h xs)

/-- A mapped trace whose events all have the same rank is stage ordered. -/
theorem stageOrdered_map {f : String → StageEv} {k : Nat}
    (hf : ∀ s, stageRank (f s) = k) (l : List String) :
    StageOrdered (l.map f) := by
  unfold StageOrdered
  exact List.pairwise_map.mpr
    (pairwiseOfForall (fun a b => by rw [hf a, hf b]) l)

/-- Concatenating a trace bounded above by k with one bounded below by k
preserves stage order. -/
theorem stageOrdered_append {t1 t2 : List StageEv} {k : Nat}
    (h1 : StageOrdered t1) (h2 : StageOrdered t2)
    (hb1 : ∀ a ∈ t1, stageRank a ≤ k) (hb2 : ∀ b ∈ t2, k ≤ stageRank b) :
    StageOrdered (t1 ++ t2) :=
  List.pairwise_append.mpr ⟨h1, h2, fun a ha b hb => le_trans (hb1 a ha) (hb2 b hb)⟩

/-- Rank of every event of a mapped trace. -/
theorem rank_mem_map {l : List String} {f : String → StageEv} {k : Nat}
    (hf : ∀ s, stageRank (f s) = k) : ∀ a ∈ l.map f, stageRank a = k := by
  intro a ha
  rcases List.mem_map.mp ha with ⟨s, _, rfl⟩
  exact hf s

/-- Membership bound over a concatenation. -/
theorem rankBound_append {t1 t2 : List StageEv} {k : Nat}
    (h1 : ∀ a ∈ t1, stageRank a ≤ k) (h2 : ∀ a ∈ t2, stageRank a ≤ k) :
    ∀ a ∈ t1 ++ t2, stageRank a ≤ k := by
  intro a ha
  rcases List.mem_append.mp ha with h | h
  exacts [h1 a h, h2 a h]

/-- invokeAll returns normally when no method of the list throws during its
synchronous part. -/
theorem invokeAllRun_ok : ∀ {l : List Hook}, (∀ x ∈ l, noSyncThrow x) →
    invokeAllRun l = Except.ok () := by
  intro l
  induction l with
  | nil => intro _; rfl
  | cons x xs ih =>
      intro h
      have hx := h x (by simp)
      unfold noSyncThrow Hook.throwsSync at hx
      cases hb : x.beh <;> simp [invokeAllRun, hb] <;> rw [hb] at hx
      · exact ih (fun y hy => h y (by simp [hy]))
      · simp at hx
      all_goals exact ih (fun y hy => h y (by simp [hy]))

/-- Events of constant rank are bounded above by any larger rank. -/
theorem rankLe_of_eq {t : List StageEv} {j k : Nat}
    (h : ∀ a ∈ t, stageRank a = j) (hk : j ≤ k) :
    ∀ a ∈ t, stageRank a ≤ k :=
  fun a ha => (h a ha) ▸ hk

/-- Events of constant rank are bounded below by any smaller rank. -/
theorem rankGe_of_eq {t : List StageEv} {j k : Nat}
    (h : ∀ a ∈ t, stageRank a = j) (hk : k ≤ j) :
    ∀ a ∈ t, k ≤ stageRank a :=
  fun a ha => (h a ha) ▸ hk

/-- The invoked part of a snapshot emission is the snapshot itself, whatever
the callbacks do to the registered set. -/
theorem emitSnap_fst (env : List Listener) :
    ∀ (tv cur : List String), (emitSnap env tv cur).1 = tv
  | [], _ => rfl
  | x :: tv, cur => by
      simp [emitSnap, emitSnap_fst env tv]

/-- Unfolding of a run over one step. -/
theorem runMain_cons (dHooks : List String) (s : MainState) (a : MainAct)
    (rest : List MainAct) :
    runMain dHooks s (a :: rest) =
      ((runMain dHooks (mainStep dHooks s a).1 rest).1,
       (mainStep dHooks s a).2.1 ++ (runMain dHooks (mainStep dHooks s a).1 rest).2.1,
       (mainStep dHooks s a).2.2 ++ (runMain dHooks (mainStep dHooks s a).1 rest).2.2) :=
  rfl

/-- A request while the pipeline is in flight returns the published handle and
changes nothing: the slot has no instance, so the fast path is skipped, and
registered.mount is returned. -/
theorem mountM_inflight (dHooks : List String) (c : Ctr) :
    mountM dHooks c (inflightS c) = (inflightS c, MountRes.handle 1, []) :=
  rfl

/-- A request after completion, with the same constructor, takes the fast path
and returns the cached instance; no pipeline work happens. -/
theorem mountM_mounted (dHooks : List String) (c : Ctr) :
    mountM dHooks c (mountedS c) = (mountedS c, MountRes.inst (inst0 c), []) := by
  simp [mountM, mountedS, inst0]

/-- A request on the absent key constructs the bare instance, starts the
pipeline and publishes the in-flight handle. -/
theorem mountM_state0 (dHooks : List String) (c : Ctr) :
    mountM dHooks c state0 =
      (inflightS c, MountRes.handle 1,
       [MainEv.constructed (inst0 c), MainEv.pipelineStart (inst0 c)]) :=
  rfl

/-- The success handler is a no-op before any pipeline started. -/
theorem completeOkM_state0 (h : Nat) : completeOkM state0 h = (state0, []) :=
  rfl

/-- The success handler is a no-op after the pipeline already resolved. -/
theorem completeOkM_mounted (c : Ctr) (h : Nat) :
    completeOkM (mountedS c) h = (mountedS c, []) :=
  rfl

/-- Resolution of the in-flight pipeline publishes its instance; resolution of
any other promise changes nothing. -/
theorem completeOkM_inflight (c : Ctr) (h : Nat) :
    completeOkM (inflightS c) h =
      if h = 1 then (mountedS c, [MainEv.published (inst0 c)])
      else (inflightS c, []) := by
  by_cases hh : h = 1
  · subst hh
    simp [completeOkM, inflightS, mountedS, inst0]
  · have hb : (1 == h) = false := beq_eq_false_iff_ne.mpr (Ne.symm hh)
    simp [completeOkM, inflightS, List.find?, hh, hb]

/-- Helper for C1: starting in flight or mounted, a run of requests for the
constructor and promise resolutions stays in those two states and every
request result is the shared handle or the one instance. -/
theorem c1_run_aux (dHooks : List String) (c : Ctr) :
    ∀ (acts : List MainAct),
      (∀ a ∈ acts, a = MainAct.req c ∨ a.isCompleteOk = true) →
    ∀ (s : MainState), (s = inflightS c ∨ s = mountedS c) →
      ((runMain dHooks s acts).1 = inflightS c ∨
        (runMain dHooks s acts).1 = mountedS c) ∧
      ∀ r ∈ (runMain dHooks s acts).2.1,
        r = MountRes.handle 1 ∨ r = MountRes.inst (inst0 c) := by
  intro acts
  induction acts with
  | nil =>
      intro _ s hs
      exact ⟨hs, by simp [runMain]⟩
  | cons a rest ih =>
      intro hacts s hs
      have hrest : ∀ x ∈ rest, x = MainAct.req c ∨ x.isCompleteOk = true :=
        fun x hx => hacts x (by simp [hx])
      have hstep : (mainStep dHooks s a).1 = inflightS c ∨
          (mainStep dHooks s a).1 = mountedS c := by
        rcases hacts a (by simp) with ha | ha
        · subst ha
          rcases hs with hs | hs <;> subst hs
          · simp [mainStep, mountM_inflight]
          · simp [mainStep, mountM_mounted]
        · cases a with
          | completeOk h =>
              rcases hs with hs | hs <;> subst hs
              · by_cases hh : h = 1
                · subst hh
                  simp [mainStep, completeOkM_inflight]
                · simp [mainStep, completeOkM_inflight, hh]
              · simp [mainStep, completeOkM_mounted]
          | req src => simp [MainAct.isCompleteOk] at ha
          | completeFail h => simp [MainAct.isCompleteOk] at ha
          | destroyAct r => simp [MainAct.isCompleteOk] at ha
      have hres1 : ∀ r ∈ (mainStep dHooks s a).2.1,
          r = MountRes.handle 1 ∨ r = MountRes.inst (inst0 c) := by
        rcases hacts a (by simp) with ha | ha
        · subst ha
          rcases hs with hs | hs <;> subst hs
          · simp [mainStep, mountM_inflight]
          · simp [mainStep, mountM_mounted]
        · cases a with
          | completeOk h => simp [mainStep]
          | req src => simp [MainAct.isCompleteOk] at ha
          | completeFail h => simp [MainAct.isCompleteOk] at ha
          | destroyAct r => simp [MainAct.isCompleteOk] at ha
      obtain ⟨hfin, hres⟩ := ih hrest (mainStep dHooks s a).1 hstep
      rw [runMain_cons]
      refine ⟨hfin, ?_⟩
      intro r hr
      rcases List.mem_append.mp hr with hr | hr
      · exact hres1 r hr
      · exact hres r hr

/-- Helper for C1: from the absent key, such a run produces results that all
denote the single pipeline, and the pipeline starts exactly once as soon as at
least one request occurs. -/
theorem c1_run_zero (dHooks : List String) (c : Ctr) :
    ∀ (acts : List MainAct),
      (∀ a ∈ acts, a = MainAct.req c ∨ a.isCompleteOk = true) →
      (∀ r ∈ (runMain dHooks state0 acts).2.1,
        r = MountRes.handle 1 ∨ r = MountRes.inst (inst0 c)) ∧
      (runMain dHooks state0 acts).1.starts =
        (if MainAct.req c ∈ acts then 1 else 0) := by
  intro acts
  induction acts with
  | nil => exact fun _ => ⟨by simp [runMain], by simp [runMain, state0]⟩
  | cons a rest ih =>
      intro hacts
      have hrest : ∀ x ∈ rest, x = MainAct.req c ∨ x.isCompleteOk = true :=
        fun x hx => hacts x (by simp [hx])
      rcases hacts a (by simp) with ha | ha
      · subst ha
        have hstep : mainStep dHooks state0 (MainAct.req c) =
            (inflightS c, [MountRes.handle 1],
             [MainEv.constructed (inst0 c), MainEv.pipelineStart (inst0 c)]) := by
          simp [mainStep, mountM_state0]
        rw [runMain_cons, hstep]
        obtain ⟨hfin, hres⟩ := c1_run_aux dHooks c rest hrest (inflightS c) (Or.inl rfl)
        refine ⟨?_, ?_⟩
        · intro r hr
          rcases List.mem_append.mp hr with hr | hr
          · simp at hr
            exact Or.inl hr
          · exact hres r hr
        · have hst : (runMain dHooks (inflightS c) rest).1.starts = 1 := by
            rcases hfin with h | h <;> rw [h] <;> rfl
          simp [hst]
      · cases a with
        | completeOk h =>
            have hstep : mainStep dHooks state0 (MainAct.completeOk h) =
                (state0, [], []) := by
              simp [mainStep, completeOkM_state0]
            rw [runMain_cons, hstep]
            obtain ⟨hres, hst⟩ := ih hrest
            refine ⟨by simpa using hres, ?_⟩
            simpa using hst
        | req src => simp [MainAct.isCompleteOk] at ha
        | completeFail h => simp [MainAct.isCompleteOk] at ha
        | destroyAct r => simp [MainAct.isCompleteOk] at ha

/-- Lookup after setting the same key. -/
theorem alget_alset_self {α : Type} :
    ∀ (m : List (String × α)) (k : String) (v : α), alget (alset m k v) k = some v
  | [], k, v => by simp [alget, alset]
  | p :: m, k, v => by
      by_cases hp : p.1 = k
      · simp [alget, alset, hp]
      · simp [alget, alset, hp, alget_alset_self m k v]

/-- Lookup after setting a different key. -/
theorem alget_alset_ne {α : Type} :
    ∀ (m : List (String × α)) (k j : String) (v : α),
      k ≠ j → alget (alset m k v) j = alget m j
  | [], k, j, v, hkj => by simp [alget, alset, hkj]
  | p :: m, k, j, v, hkj => by
      by_cases hp : p.1 = k
      · simp [alget, alset, hp, hkj]
      · by_cases hj : p.1 = j <;>
          simp [alget, alset, hp, hj, Ne.symm hkj, alget_alset_ne m k j v hkj]

/-- Lookup after deleting the same key. -/
theorem alget_aldel_self {α : Type} :
    ∀ (m : List (String × α)) (k : String), alget (aldel m k) k = none
  | [], _ => rfl
  | p :: m, k => by
      by_cases hp : p.1 = k
      · simpa [aldel, List.filter_cons, hp] using alget_aldel_self m k
      · simpa [aldel, List.filter_cons, hp, alget] using alget_aldel_self m k

/-- Lookup after deleting a different key. -/
theorem alget_aldel_ne {α : Type} :
    ∀ (m : List (String × α)) (k j : String), k ≠ j → alget (aldel m k) j = alget m j
  | [], _, _, _ => rfl
  | p :: m, k, j, hkj => by
      by_cases hp : p.1 = k
      · simpa [aldel, List.filter_cons, hp, alget, hkj] using alget_aldel_ne m k j hkj
      · by_cases hj : p.1 = j
        · simp [aldel, List.filter_cons, hp, alget, hj, Ne.symm hkj]
        · simpa [aldel, List.filter_cons, hp, alget, hj] using alget_aldel_ne m k j hkj

/-- A step that is no completed mount of service n leaves an absent instances
entry of n absent. -/
theorem instsNone_step8 (n : String) (st : SR8State) (e : Ev8)
    (hnm : ∀ h i, e ≠ Ev8.mountDone n h i) (h0 : alget st.insts n = none) :
    alget (step8 st e).insts n = none := by
  cases e with
  | mountStart s => simpa [step8] using h0
  | mountDone n2 h i =>
      have hne : n2 ≠ n := fun he => hnm h i (by rw [he])
      simpa [step8, alget_alset_ne _ n2 n _ hne] using h0
  | destroy8 n2 h =>
      by_cases hne : n2 = n
      · subst hne
        simp [step8, h0]
      · simp only [step8]
        cases hh : alget st.insts n2 with
        | none => simpa [hh] using h0
        | some l => simpa [hh, alget_alset_ne _ n2 n _ hne] using h0

/-- No completed mount of service n anywhere in a run: its instances entry
stays absent. -/
theorem run8_no_mount_aux (n : String) :
    ∀ (evs : List Ev8) (st : SR8State),
      (∀ h i, Ev8.mountDone n h i ∉ evs) → alget st.insts n = none →
      alget (evs.foldl step8 st).insts n = none
  | [], _, _, h0 => h0
  | e :: evs, st, hno, h0 =>
      run8_no_mount_aux n evs (step8 st e)
        (fun h i hm => hno h i (List.mem_cons_of_mem _ hm))
        (instsNone_step8 n st e
          (fun h i he => hno h i (he ▸ List.mem_cons_self _ _)) h0)

/-- A step that is no completed mount of the slot (n, h) leaves an empty slot
empty. -/
theorem instGet8_step8 (n h : String) (st : SR8State) (e : Ev8)
    (hnm : ∀ i, e ≠ Ev8.mountDone n h i) (h0 : instGet8 st n h = none) :
    instGet8 (step8 st e) n h = none := by
  cases e with
  | mountStart s => simpa [step8, instGet8] using h0
  | mountDone n2 h2 i =>
      by_cases hne : n2 = n
      · subst hne
        have hh2 : h2 ≠ h := fun he => hnm i (by rw [he])
        unfold instGet8 at h0 ⊢
        simp only [step8, alget_alset_self]
        cases hl : alget st.insts n2 with
        | none => simp [alget, hh2]
        | some l =>
            rw [hl] at h0
            simpa [alget_alset_ne _ h2 h _ hh2] using h0
      · unfold instGet8 at h0 ⊢
        simpa [step8, alget_alset_ne _ n2 n _ hne] using h0
  | destroy8 n2 h2 =>
      by_cases hne : n2 = n
      · subst hne
        unfold instGet8 at h0 ⊢
        simp only [step8]
        cases hl : alget st.insts n2 with
        | none => simpa [hl] using h0
        | some l =>
            rw [hl] at h0
            by_cases hh2 : h2 = h
            · subst hh2
              simp [alget_alset_self, alget_aldel_self]
            · simpa [alget_alset_self, alget_aldel_ne _ h2 h hh2] using h0
      · unfold instGet8 at h0 ⊢
        simp only [step8]
        cases hl : alget st.insts n2 with
        | none => simpa [hl] using h0
        | some l => simpa [hl, alget_alset_ne _ n2 n _ hne] using h0

/-- An empty slot (n, h) stays empty over a run with no completed mount of
that slot. -/
theorem instGet8_none_aux (n h : String) :
    ∀ (evs : List Ev8) (st : SR8State),
      (∀ i, Ev8.mountDone n h i ∉ evs) → instGet8 st n h = none →
      instGet8 (evs.foldl step8 st) n h = none
  | [], _, _, h0 => h0
  | e :: evs, st, hno, h0 =>
      instGet8_none_aux n h evs (step8 st e)
        (fun i hm => hno i (List.mem_cons_of_mem _ hm))
        (instGet8_step8 n h st e
          (fun i he => hno i (he ▸ List.mem_cons_self _ _)) h0)

/-- A destroy step empties its slot. -/
theorem instGet8_destroy (n h : String) (st : SR8State) :
    instGet8 (step8 st (Ev8.destroy8 n h)) n h = none := by
  unfold instGet8
  simp only [step8]
  cases hl : alget st.insts n with
  | none => simp [hl, alget]
  | some l => simp [alget_alset_self, alget_aldel_self]

/-! ## Claim theorems -/

/-- C2 (counterexample): the staged pipeline of
ServiceRegistery._initService in src/service-registery.ts runs the configure
hooks before the side-effect mounts.  With one configure hook and one side
effect the trace is (default-module mount, configure call, side-effect mount),
so the claimed order — side effects, then dependency binds, then configure,
init and mount hooks — fails on that trace. -/
theorem stage_order_cex :
    initOrderTop ⟨["confA"], ["effB"], [], [], [], []⟩ =
      [StageEv.mountDefault, StageEv.configureCall "confA",
       StageEv.sideEffectMount "effB"] ∧
    ¬ StageOrdered (initOrderTop ⟨["confA"], ["effB"], [], [], [], []⟩) :=
  ⟨rfl, by decide⟩

/-- C2 (amended, theorem): in Registery._init of src/src/main/registery.ts the
pipeline work items of one mount are issued strictly in the order side-effect
mounts, then dependency-field binds, then configure hooks, then init hooks,
then mount hooks, for every shadow. -/
theorem stage_order_main (sh : ShadowO) : StageOrdered (initOrderMain sh) := by
  unfold initOrderMain
  have hse : ∀ a ∈ sh.sideEffects.map StageEv.sideEffectMount, stageRank a = 1 :=
    rank_mem_map (fun _ => rfl)
  have hdep : ∀ a ∈ sh.injections.map StageEv.depBind, stageRank a = 2 :=
    rank_mem_map (fun _ => rfl)
  have hconf : ∀ a ∈ sh.configures.map StageEv.configureCall, stageRank a = 3 :=
    rank_mem_map (fun _ => rfl)
  have hini : ∀ a ∈ sh.inits.map StageEv.initCall, stageRank a = 4 :=
    rank_mem_map (fun _ => rfl)
  have hmnt : ∀ a ∈ sh.mounts.map StageEv.mountCall, stageRank a = 5 :=
    rank_mem_map (fun _ => rfl)
  have o1 := stageOrdered_append (k := 2)
    (stageOrdered_map (f := StageEv.sideEffectMount) (k := 1) (fun _ => rfl) sh.sideEffects)
    (stageOrdered_map (f := StageEv.depBind) (k := 2) (fun _ => rfl) sh.injections)
    (rankLe_of_eq hse (by omega)) (rankGe_of_eq hdep (by omega))
  have b1 := rankBound_append (k := 3)
    (rankLe_of_eq hse (by omega)) (rankLe_of_eq hdep (by omega))
  have o2 := stageOrdered_append (k := 3) o1
    (stageOrdered_map (f := StageEv.configureCall) (k := 3) (fun _ => rfl) sh.configures)
    b1 (rankGe_of_eq hconf (by omega))
  have b2 := rankBound_append (k := 4) (rankBound_append (k := 4)
    (rankLe_of_eq hse (by omega)) (rankLe_of_eq hdep (by omega)))
    (rankLe_of_eq hconf (by omega))
  have o3 := stageOrdered_append (k := 4) o2
    (stageOrdered_map (f := StageEv.initCall) (k := 4) (fun _ => rfl) sh.inits)
    b2 (rankGe_of_eq hini (by omega))
  have b3 := rankBound_append (k := 5) (rankBound_append (k := 5)
    (rankBound_append (k := 5)
      (rankLe_of_eq hse (by omega)) (rankLe_of_eq hdep (by omega)))
    (rankLe_of_eq hconf (by omega)))
    (rankLe_of_eq hini (by omega))
  exact stageOrdered_append (k := 5) o3
    (stageOrdered_map (f := StageEv.mountCall) (k := 5) (fun _ => rfl) sh.mounts)
    b3 (rankGe_of_eq hmnt (by omega))

/-- C5 (counterexample): a mount-stage hook that throws synchronously makes
Registery._init reject with the wrapped failure (stage mount-callbacks), so
the mount promise does not resolve with the instance and the failure reaches
every caller awaiting the mount — contradicting the claim that mount-stage
failures are never propagated. -/
theorem mount_hook_throw_cex :
    initRun ⟨[], [], [], [], [⟨"afterMount", HookBeh.throwSync "bad"⟩]⟩ =
      Except.error ⟨"Initialization failed", "bad", ["_init", "mount-callbacks"]⟩ ∧
    initRun ⟨[], [], [], [], [⟨"afterMount", HookBeh.throwSync "bad"⟩]⟩ ≠
      Except.ok () :=
  ⟨rfl, fun h => Except.noConfusion
    ((rfl : initRun ⟨[], [], [], [], [⟨"afterMount", HookBeh.throwSync "bad"⟩]⟩ =
        Except.error ⟨"Initialization failed", "bad", ["_init", "mount-callbacks"]⟩).symm.trans h)⟩

/-- C5 (amended, theorem): the promises returned by mount-stage hooks are
never awaited, so if no mount hook throws synchronously — rejections of their
returned promises included — the mount resolves with the instance. -/
theorem mount_hooks_not_awaited (sh : ShadowP)
    (hse : firstFailure sh.sideEffects = none)
    (hinj : firstFailure sh.injections = none)
    (hconf : invokeAllRun sh.configures = Except.ok ())
    (hini : invokeAllRun sh.inits = Except.ok ())
    (hm : ∀ x ∈ sh.mounts, noSyncThrow x) :
    initRun sh = Except.ok () := by
  simp [initRun, hse, hinj, hconf, hini, invokeAllRun_ok hm]

/-- C5 (witness): a mount hook whose returned promise rejects does not keep
the mount from resolving. -/
theorem mount_hooks_not_awaited_w :
    (∀ x ∈ [Hook.mk "afterMount" (HookBeh.asyncFail "late")], noSyncThrow x) ∧
    initRun ⟨[], [], [], [], [⟨"afterMount", HookBeh.asyncFail "late"⟩]⟩ =
      Except.ok () :=
  ⟨by decide,
   mount_hooks_not_awaited ⟨[], [], [], [], [⟨"afterMount", HookBeh.asyncFail "late"⟩]⟩
     rfl rfl rfl rfl (by decide)⟩

/-- C6 (counterexample): an init hook whose returned promise rejects does not
reject the mount at all — invokeAll collects the promise unawaited — so the
mount resolves and no wrapped initialization failure is delivered, although
the init stage raised. -/
theorem async_init_fail_cex :
    initRun ⟨[], [], [], [⟨"ini", HookBeh.asyncFail "boom"⟩], []⟩ = Except.ok () ∧
    ∀ e : NJSESErr,
      initRun ⟨[], [], [], [⟨"ini", HookBeh.asyncFail "boom"⟩], []⟩ ≠
        Except.error e := by
  refine ⟨rfl, fun e h => ?_⟩
  exact Except.noConfusion
    ((rfl : initRun ⟨[], [], [], [⟨"ini", HookBeh.asyncFail "boom"⟩], []⟩ =
        Except.ok ()).symm.trans h)

/-- C6 (amended, theorem): every failure Registery._init observes — a
side-effect mount rejection, a dependency resolution rejection, or a
synchronous throw from a configure or init hook — rejects the mount with
NJSESError (message Initialization failed) carrying the original cause and
the name of the stage; and all requests arriving while the pipeline is in
flight receive the one shared promise, hence the same failure. -/
theorem stage_failure_wrapped (sh : ShadowP) (c : String) :
    (firstFailure sh.sideEffects = some c →
      initRun sh = Except.error ⟨"Initialization failed", c, ["_init", "side-effects"]⟩) ∧
    (firstFailure sh.sideEffects = none → firstFailure sh.injections = some c →
      initRun sh = Except.error ⟨"Initialization failed", c, ["_init", "injections"]⟩) ∧
    (firstFailure sh.sideEffects = none → firstFailure sh.injections = none →
      invokeAllRun sh.configures = Except.error c →
      initRun sh = Except.error ⟨"Initialization failed", c, ["_init", "configuration"]⟩) ∧
    (firstFailure sh.sideEffects = none → firstFailure sh.injections = none →
      invokeAllRun sh.configures = Except.ok () →
      invokeAllRun sh.inits = Except.error c →
      initRun sh = Except.error ⟨"Initialization failed", c, ["_init", "init-callbacks"]⟩) ∧
    (∀ (dHooks : List String) (cr : Ctr),
      mountM dHooks cr (inflightS cr) = (inflightS cr, MountRes.handle 1, [])) := by
  refine ⟨?_, ?_, ?_, ?_, fun dHooks cr => rfl⟩
  · intro h1
    simp [initRun, h1]
  · intro h1 h2
    simp [initRun, h1, h2]
  · intro h1 h2 h3
    simp [initRun, h1, h2, h3]
  · intro h1 h2 h3 h4
    simp [initRun, h1, h2, h3, h4]

/-- C6 (witness): a rejecting side-effect mount yields the wrapped failure
naming the stage and carrying the cause. -/
theorem stage_failure_wrapped_w :
    firstFailure [AwaitedOp.mk "fx" (some "boom")] = some "boom" ∧
    initRun ⟨[⟨"fx", some "boom"⟩], [], [], [], []⟩ =
      Except.error ⟨"Initialization failed", "boom", ["_init", "side-effects"]⟩ :=
  ⟨by decide,
   (stage_failure_wrapped ⟨[⟨"fx", some "boom"⟩], [], [], [], []⟩ "boom").1 (by decide)⟩

/-- C9 (counterexample): the live-set emit of src/shadow.ts invokes a listener
that another listener registered during the dispatch: with listener A adding
B, emitting over the registered set consisting of A invokes A and then B, not
the snapshot consisting of A alone. -/
theorem emit_live_mutation_cex :
    emitLiveRun [⟨"A", LAct.addL "B"⟩, ⟨"B", LAct.pass⟩] ["A"] = ["A", "B"] ∧
    emitLiveRun [⟨"A", LAct.addL "B"⟩, ⟨"B", LAct.pass⟩] ["A"] ≠ ["A"] ∧
    emitSnapInvoked [⟨"A", LAct.addL "B"⟩, ⟨"B", LAct.pass⟩] ["A"] = ["A"] :=
  ⟨rfl, by decide, rfl⟩

/-- C9 (amended, theorem): the snapshot emit of src/src/shadow.ts invokes
exactly the listeners registered at the moment of the call, whatever set
mutations the invoked callbacks perform. -/
theorem emit_snapshot_fixed (env : List Listener) (listeners : List String) :
    emitSnapInvoked env listeners = listeners :=
  emitSnap_fst env listeners listeners

/-- C1 (theorem): for a singleton key, any run of mount requests for one
constructor interleaved with promise resolutions, started on the absent key,
returns from every request either the single published handle (which resolves
with inst0 c, the one constructed instance — last conjunct) or that instance
itself; the pipeline starts exactly once as soon as one request occurred, and
in particular a request during flight returns the existing handle and a
request after completion returns the cached instance, both without touching
the state. -/
theorem singleton_single_flight (dHooks : List String) (c : Ctr)
    (acts : List MainAct)
    (hacts : ∀ a ∈ acts, a = MainAct.req c ∨ a.isCompleteOk = true) :
    (∀ r ∈ (runMain dHooks state0 acts).2.1,
        r = MountRes.handle 1 ∨ r = MountRes.inst (inst0 c)) ∧
    (runMain dHooks state0 acts).1.starts =
      (if MainAct.req c ∈ acts then 1 else 0) ∧
    mountM dHooks c (inflightS c) = (inflightS c, MountRes.handle 1, []) ∧
    mountM dHooks c (mountedS c) = (mountedS c, MountRes.inst (inst0 c), []) ∧
    (inflightS c).pendings = [(1, inst0 c)] :=
  ⟨(c1_run_zero dHooks c acts hacts).1,
   (c1_run_zero dHooks c acts hacts).2,
   mountM_inflight dHooks c, mountM_mounted dHooks c, rfl⟩

/-- C1 (witness): a request, the resolution, and a second request. -/
theorem singleton_single_flight_w :
    (∀ a ∈ [MainAct.req ⟨0, "A"⟩, MainAct.completeOk 1, MainAct.req ⟨0, "A"⟩],
        a = MainAct.req ⟨0, "A"⟩ ∨ a.isCompleteOk = true) ∧
    ((∀ r ∈ (runMain [] state0
          [MainAct.req ⟨0, "A"⟩, MainAct.completeOk 1, MainAct.req ⟨0, "A"⟩]).2.1,
        r = MountRes.handle 1 ∨ r = MountRes.inst (inst0 ⟨0, "A"⟩)) ∧
      (runMain [] state0
          [MainAct.req ⟨0, "A"⟩, MainAct.completeOk 1, MainAct.req ⟨0, "A"⟩]).1.starts =
        (if MainAct.req ⟨0, "A"⟩ ∈
            [MainAct.req ⟨0, "A"⟩, MainAct.completeOk 1, MainAct.req ⟨0, "A"⟩]
          then 1 else 0) ∧
      mountM [] ⟨0, "A"⟩ (inflightS ⟨0, "A"⟩) =
        (inflightS ⟨0, "A"⟩, MountRes.handle 1, []) ∧
      mountM [] ⟨0, "A"⟩ (mountedS ⟨0, "A"⟩) =
        (mountedS ⟨0, "A"⟩, MountRes.inst (inst0 ⟨0, "A"⟩), []) ∧
      (inflightS ⟨0, "A"⟩).pendings = [(1, inst0 ⟨0, "A"⟩)]) :=
  ⟨by decide,
   singleton_single_flight [] ⟨0, "A"⟩
     [MainAct.req ⟨0, "A"⟩, MainAct.completeOk 1, MainAct.req ⟨0, "A"⟩] (by decide)⟩

/-- C3 (counterexample): in Registery.mount (src/src/main/registery.ts) a
failed pipeline is not evicted — there is no rejection handler — so after the
rejection the slot still holds the in-flight promise (entry is not cleared)
and a subsequent request for the key returns that same rejected handle:
no new bare instance is constructed and the pipeline count stays 1, contrary
to the claim. -/
theorem failed_mount_cached_cex :
    runMain [] state0
        [MainAct.req ⟨0, "A"⟩, MainAct.completeFail 1, MainAct.req ⟨0, "A"⟩] =
      (⟨some ⟨none, some 1⟩, [], 2, 1⟩,
       [MountRes.handle 1, MountRes.handle 1],
       [MainEv.constructed (inst0 ⟨0, "A"⟩), MainEv.pipelineStart (inst0 ⟨0, "A"⟩)]) ∧
    (runMain [] state0
        [MainAct.req ⟨0, "A"⟩, MainAct.completeFail 1, MainAct.req ⟨0, "A"⟩]).1.entry ≠
      none ∧
    (runMain [] state0
        [MainAct.req ⟨0, "A"⟩, MainAct.completeFail 1, MainAct.req ⟨0, "A"⟩]).1.starts = 1 :=
  ⟨rfl, by decide, rfl⟩

/-- C3 (amended, theorem): in ServiceRegistery.mountService
(src/src/service-registery.ts) the finally handler deletes the mounts slot on
rejection and nothing is stored in the instances map, so the key is fully
evicted, and the next request for it constructs a new bare instance and runs
the pipeline again. -/
theorem failed_mount_evicted_sr (h : Nat) (i : Inst) (c : Ctr) (nid st : Nat) :
    (completeFailSR ⟨none, some h, [(h, i)], nid, st⟩ h).1 =
      ⟨none, none, [], nid, st⟩ ∧
    mountSR c ⟨none, none, [], nid, st⟩ =
      (⟨none, some (nid + 1), [(nid + 1, ⟨nid, c⟩)], nid + 2, st + 1⟩,
       MountRes.handle (nid + 1),
       [SREv.constructed ⟨nid, c⟩, SREv.pipelineStart ⟨nid, c⟩]) := by
  constructor
  · simp [completeFailSR, List.find?]
  · rfl

/-- C4 (counterexample): the hot-swap branch of
ServiceRegistery.mountService (src/src/service-registery.ts) deletes the
stale instance silently — the trace of a mount that replaces an instance of a
different constructor contains the two map deletions and the fresh
construction, but no destroy-hook invocation, although a destroy hook is
declared. -/
theorem hot_swap_no_destroy_cex :
    mountSR ⟨5, "A"⟩ ⟨some ⟨0, ⟨0, "A"⟩⟩, none, [], 2, 1⟩ =
      (⟨none, some 3, [(3, ⟨2, ⟨5, "A"⟩⟩)], 4, 2⟩,
       MountRes.handle 3,
       [SREv.instancesDelete, SREv.mountsDelete,
        SREv.constructed ⟨2, ⟨5, "A"⟩⟩, SREv.pipelineStart ⟨2, ⟨5, "A"⟩⟩]) ∧
    ∀ ev ∈ (mountSR ⟨5, "A"⟩ ⟨some ⟨0, ⟨0, "A"⟩⟩, none, [], 2, 1⟩).2.2,
      ∀ (j : Inst) (m : String) (a : HookArg), ev ≠ SREv.destroyHook j m a := by
  refine ⟨rfl, ?_⟩
  intro ev hev j m a
  have hev2 : ev ∈ [SREv.instancesDelete, SREv.mountsDelete,
      SREv.constructed ⟨2, ⟨5, "A"⟩⟩, SREv.pipelineStart ⟨2, ⟨5, "A"⟩⟩] := hev
  simp at hev2
  rcases hev2 with h | h | h | h <;> subst h <;> intro hx <;> cases hx

/-- C4 (amended, theorem): in Registery.mount (src/src/main/registery.ts) a
singleton request that finds a live instance of a different constructor with
the same constructor name first runs destroyService with cause re-mount —
the slot is deleted and every destroy hook is invoked, receiving the cause
wrapped as [[re-mount]] by the invoke calling convention — and only then
constructs the new bare instance and starts the full pipeline. -/
theorem hot_swap_destroy_main (dHooks : List String) (i : Inst) (c : Ctr)
    (nid st : Nat) (hctr : i.ctr ≠ c) (hname : i.ctr.name = c.name) :
    mountM dHooks c ⟨some ⟨some i, none⟩, [], nid, st⟩ =
      (⟨some ⟨none, some (nid + 1)⟩, [(nid + 1, ⟨nid, c⟩)], nid + 2, st + 1⟩,
       MountRes.handle (nid + 1),
       (MainEv.cacheDelete ::
          dHooks.map (fun m => MainEv.destroyHook i m (HookArg.doubleWrapped "re-mount"))) ++
       [MainEv.constructed ⟨nid, c⟩, MainEv.pipelineStart ⟨nid, c⟩]) := by
  simp [mountM, destroyServiceM, freshMount, hctr, hname]

/-- C4 (witness): hot swap of constructor id 0 by constructor id 5, name A,
with one declared destroy hook. -/
theorem hot_swap_destroy_main_w :
    (Inst.mk 0 ⟨0, "A"⟩).ctr ≠ Ctr.mk 5 "A" ∧
    (Inst.mk 0 ⟨0, "A"⟩).ctr.name = (Ctr.mk 5 "A").name ∧
    mountM ["cleanup"] ⟨5, "A"⟩ ⟨some ⟨some ⟨0, ⟨0, "A"⟩⟩, none⟩, [], 7, 3⟩ =
      (⟨some ⟨none, some 8⟩, [(8, ⟨7, ⟨5, "A"⟩⟩)], 9, 4⟩,
       MountRes.handle 8,
       (MainEv.cacheDelete ::
          ["cleanup"].map
            (fun m => MainEv.destroyHook ⟨0, ⟨0, "A"⟩⟩ m (HookArg.doubleWrapped "re-mount"))) ++
       [MainEv.constructed ⟨7, ⟨5, "A"⟩⟩, MainEv.pipelineStart ⟨7, ⟨5, "A"⟩⟩]) :=
  ⟨by decide, rfl,
   hot_swap_destroy_main ["cleanup"] ⟨0, ⟨0, "A"⟩⟩ ⟨5, "A"⟩ 7 3 (by decide) rfl⟩

/-- C7 (counterexample): destroying a key whose pipeline is still in flight
(no live instance) is not a no-op in ServiceRegistery.destroy: no destroy
hook runs, but the mounts slot is deleted, so the registry state changes. -/
theorem destroy_inflight_cex :
    destroySR ["onDestroy"] "shutdown" ⟨none, some 1, [(1, ⟨0, ⟨0, "A"⟩⟩)], 2, 1⟩ =
      (⟨none, none, [(1, ⟨0, ⟨0, "A"⟩⟩)], 2, 1⟩,
       [SREv.instancesDelete, SREv.mountsDelete]) ∧
    (⟨none, none, [(1, ⟨0, ⟨0, "A"⟩⟩)], 2, 1⟩ : SRState) ≠
      ⟨none, some 1, [(1, ⟨0, ⟨0, "A"⟩⟩)], 2, 1⟩ :=
  ⟨rfl, by decide⟩

/-- C7 (amended, theorem): ServiceRegistery.destroy invokes every destroy hook
with the bare cause and then removes the instance record when a live instance
exists; with no live instance no hook runs, but a pending mounts slot is
still deleted; only when the key is absent from both maps is the state left
unchanged. -/
theorem destroy_semantics_sr (dHooks : List String) (cause : String) (i : Inst)
    (h nid st : Nat) (pend : List (Nat × Inst)) :
    destroySR dHooks cause ⟨some i, none, pend, nid, st⟩ =
      (⟨none, none, pend, nid, st⟩,
       dHooks.map (fun m => SREv.destroyHook i m (HookArg.bare cause)) ++
       [SREv.instancesDelete, SREv.mountsDelete]) ∧
    destroySR dHooks cause ⟨none, some h, pend, nid, st⟩ =
      (⟨none, none, pend, nid, st⟩, [SREv.instancesDelete, SREv.mountsDelete]) ∧
    destroySR dHooks cause ⟨none, none, pend, nid, st⟩ =
      (⟨none, none, pend, nid, st⟩, [SREv.instancesDelete, SREv.mountsDelete]) :=
  ⟨rfl, rfl, rfl⟩

/-- C10 (theorem): a destroy executed while the pipeline of the key is in
flight deletes the slot but not the pending pipeline; when the pipeline later
resolves, its success handler stores the finished instance back, so the key
maps to a live instance again — in both the Main machine and the SR
machine. -/
theorem destroy_during_mount_republish (dHooks : List String) (reason : String)
    (c : Ctr) :
    (destroyServiceM dHooks reason (inflightS c)).1 =
      ⟨none, [(1, inst0 c)], 2, 1⟩ ∧
    completeOkM ⟨none, [(1, inst0 c)], 2, 1⟩ 1 =
      (⟨some ⟨some (inst0 c), none⟩, [], 2, 1⟩, [MainEv.published (inst0 c)]) ∧
    (destroySR dHooks reason ⟨none, some 1, [(1, inst0 c)], 2, 1⟩).1 =
      ⟨none, none, [(1, inst0 c)], 2, 1⟩ ∧
    completeOkSR ⟨none, none, [(1, inst0 c)], 2, 1⟩ 1 =
      (⟨some (inst0 c), none, [], 2, 1⟩,
       [SREv.instancesSet (inst0 c), SREv.mountsDelete]) := by
  refine ⟨rfl, ?_, rfl, ?_⟩
  · simp [completeOkM, inst0]
  · simp [completeOkSR, inst0]

/-- C8 (counterexample): Registery.getAssignees of src/src/main/registery.ts
returns the constructors held in the roles map, which Registery.register
populates at registration time: a registered service that was never mounted
(its instances cache is empty) still appears among the assignees of its
role. -/
theorem assignees_unmounted_cex :
    getAssigneesMainReg (registerMain ⟨0, "A"⟩ "A" ["log"] ⟨[], [], []⟩) "log" =
      [⟨0, "A"⟩] ∧
    getAssigneesMainReg (registerMain ⟨0, "A"⟩ "A" ["log"] ⟨[], [], []⟩) "log" ≠ [] ∧
    getServiceInstancesMainReg (registerMain ⟨0, "A"⟩ "A" ["log"] ⟨[], [], []⟩) "A" = [] :=
  ⟨rfl, by decide, rfl⟩

/-- C8 (amended, theorem): in ServiceRegistery
(src/src/service-registery.ts) getAssignees returns exactly the instances
currently cached for the services registered under the role: membership is
equivalent to being a current instance of a role-carrying service, a service
with no completed mount in the whole run contributes nothing, and a slot
destroyed after its mount stays absent for the rest of the run unless
mounted again. -/
theorem assignees_mounted_sr :
    (∀ (st : SR8State) (r : String) (i : Nat),
      i ∈ getAssignees8 st r ↔
        ∃ n, n ∈ (alget st.roles r).getD [] ∧ i ∈ getInstances8 st n) ∧
    (∀ (evs : List Ev8) (n : String),
      (∀ h i, Ev8.mountDone n h i ∉ evs) → getInstances8 (run8 evs) n = []) ∧
    (∀ (evs1 evs2 : List Ev8) (n h : String),
      (∀ i, Ev8.mountDone n h i ∉ evs2) →
      instGet8 (run8 (evs1 ++ Ev8.destroy8 n h :: evs2)) n h = none) := by
  refine ⟨?_, ?_, ?_⟩
  · intro st r i
    unfold getAssignees8
    simp only [List.mem_flatten, List.mem_map]
    constructor
    · rintro ⟨l, ⟨n, hn, rfl⟩, hi⟩
      exact ⟨n, hn, hi⟩
    · rintro ⟨n, hn, hi⟩
      exact ⟨getInstances8 st n, ⟨n, hn, rfl⟩, hi⟩
  · intro evs n hno
    unfold getInstances8 run8
    rw [run8_no_mount_aux n evs ⟨[], []⟩ hno rfl]
    rfl
  · intro evs1 evs2 n h hno
    unfold run8
    rw [List.foldl_append, List.foldl_cons]
    exact instGet8_none_aux n h evs2 _ hno (instGet8_destroy n h _)

/-- C8 (witness): a mount start alone contributes no instance; a mounted then
destroyed slot is absent. -/
theorem assignees_mounted_sr_w :
    (∀ h i, Ev8.mountDone "S" h i ∉ [Ev8.mountStart ⟨"S", ["log"]⟩]) ∧
    getInstances8 (run8 [Ev8.mountStart ⟨"S", ["log"]⟩]) "S" = [] ∧
    (∀ i, Ev8.mountDone "S" "h0" i ∉ ([] : List Ev8)) ∧
    instGet8 (run8 ([Ev8.mountStart ⟨"S", ["log"]⟩, Ev8.mountDone "S" "h0" 42] ++
      Ev8.destroy8 "S" "h0" :: [])) "S" "h0" = none :=
  ⟨fun h i hm => by simp at hm,
   assignees_mounted_sr.2.1 [Ev8.mountStart ⟨"S", ["log"]⟩] "S"
     (fun h i hm => by simp at hm),
   fun i hm => by simp at hm,
   assignees_mounted_sr.2.2 [Ev8.mountStart ⟨"S", ["log"]⟩, Ev8.mountDone "S" "h0" 42]
     [] "S" "h0" (fun i hm => by simp at hm)⟩

end NJSES
